import Mathlib

/-!
# zmk-connector: a shallow embedding of `connector.c`

The host-side client talks to a keyboard through two external libraries, hidapi
(the transport) and cJSON (the result builder).  Their behaviour is not part of
the program, so every call into them is answered by an oracle collected in the
structure `Env`; the program text of `connector.c` is translated function by
function on top of these oracles.

Conventions of the embedding
* A C string (`char *`, `wchar_t *`) is the list of its code units before the
  terminator, so `strlen`/`wcslen` is `List.length` and `wcscmp a b` is zero
  exactly when the two lists are equal.
* Bytes and wide characters are natural numbers; a load from a `uint8_t`
  object reduces modulo `256`.
* A function returning a pointer produces a `Ret`: `ok` for a non-`NULL`
  pointer, `null` for `NULL`, and `undefined` when the execution stored outside
  an object (the C standard gives such an execution no meaning).
* Stores into the two fixed local buffers of the string conversions are logged
  as `(index, value)` pairs in program order.
* Calls into the transport made by the two query functions are logged as
  `Event`s in program order.
* The target is the little-endian clang ABI the file is compiled for: packed
  structs have no padding, `uint32_t` is stored least significant byte first
  and the first declared bit-field occupies bit 0.
* `cJSON_PrintUnformatted` is the external serializer: the returned text is
  represented by the cJSON value it prints.
-/

namespace ZmkConnector

/-! ## Data model -/

/-- Result of a C function that returns a pointer. -/
inductive Ret (α : Type) where
  | ok (a : α)
  | null
  | undefined
  deriving DecidableEq, Repr

/-- The fields of hidapi's `struct hid_device_info` that `connector.c` reads; the
`next` link is the tail of the list the entry sits in. -/
structure hid_device_info where
  serial_number : List Nat
  manufacturer_string : List Nat
  product_string : List Nat
  deriving DecidableEq, Repr

/-- A cJSON item of the kinds `connector.c` creates. -/
inductive cJSON_Value where
  | number (n : Nat)
  | bool (b : Bool)
  | string (s : List Nat)
  deriving DecidableEq, Repr

/-- A cJSON object: its members in insertion order. -/
abbrev cJSON_Object := List (String × cJSON_Value)

/-- A call into the transport on behalf of a query function. -/
inductive Event where
  | hid_open (vendor_id product_id : Nat) (serial_number : List Nat)
  | hid_error (dev : Option Nat)
  | hid_send_feature_report (dev : Nat) (data : List Nat) (length : Nat)
  | hid_get_feature_report (dev : Nat) (report_id : Nat) (length : Nat)
  | hid_close (dev : Nat)
  deriving DecidableEq, Repr

/-- An execution of a query function: the transport calls it made and what it
returned. -/
structure Run (α : Type) where
  trace : List Event
  ret : Ret α
  deriving DecidableEq, Repr

/-- Answers of the external collaborators.
* `wctomb c`: the bytes `wctomb` stores for the wide character `c`, `none` when
  it returns `-1`;
* `mbtowc bytes`: the wide character `mbtowc` stores and the number of bytes it
  consumed when handed the remaining `bytes`, `none` when it returns `-1`;
* `hid_enumerate`: the linked list `hid_enumerate` returns, `[]` being `NULL`;
* `hid_open`: the handle `hid_open` returns, `none` being `NULL`;
* `hid_send_feature_report dev data`: the `int` it returns;
* `hid_get_feature_report dev id length`: the `int` it returns and the bytes it
  stored at the start of the caller's buffer;
* `uninit i`: the indeterminate content of byte `i` of a local report struct
  before anything is stored in it;
* `cJSON_alloc k`: whether the `k`-th allocating cJSON call of the execution
  (counted from `0`) returns non-`NULL`. -/
structure Env where
  wctomb : Nat → Option (List Nat)
  mbtowc : List Nat → Option (Nat × Nat)
  hid_enumerate : List hid_device_info
  hid_open : Nat → Nat → List Nat → Option Nat
  hid_send_feature_report : Nat → List Nat → Int
  hid_get_feature_report : Nat → Nat → Nat → Int × List Nat
  uninit : Nat → Nat
  cJSON_alloc : Nat → Bool

def ZMK_VEND_ID : Nat := 0x1d50
def ZMK_PROD_ID : Nat := 0x615e

def SETTINGS_REPORT_ID_FUNCTIONS : Nat := 0x3
def SETTINGS_REPORT_ID_KEY_SEL : Nat := 0x4
def SETTINGS_REPORT_ID_KEY_DATA : Nat := 0x5

/-! ## String bridge -/

/-- Stores made when `bytes` are written to a buffer starting at index `idx`. -/
def stores (idx : Nat) : List Nat → List (Nat × Nat)
  | [] => []
  | b :: bs => (idx, b) :: stores (idx + 1) bs

/-- The C string found in a buffer that was filled from index `0` upwards by
the logged stores: the stored values before the first zero. -/
def c_string (writes : List (Nat × Nat)) : List Nat :=
  (writes.map Prod.snd).takeWhile (fun b => b != 0)

/-- The `while` loop of `add_utf16_to_object` (lines 82-92).  The first argument
is `str` from `wchar_idx` on, so `wchar_idx < wchar_len` holds exactly when it
is non-empty.  Returns the stores into `utf8_str` and the final `utf8_idx`, or
`none` for the `return NULL` inside the loop. -/
def add_utf16_loop (wctomb : Nat → Option (List Nat)) :
    List Nat → Nat → List (Nat × Nat) → List (Nat × Nat) × Option Nat
  | [], utf8_idx, writes => (writes, some utf8_idx)
  | c :: rest, utf8_idx, writes =>
    if utf8_idx < 256 then
      match wctomb c with
      | none => (writes, none)
      | some bytes =>
        add_utf16_loop wctomb rest (utf8_idx + bytes.length) (writes ++ stores utf8_idx bytes)
    else (writes, some utf8_idx)

/-- Every store `add_utf16_to_object` makes into `char utf8_str[256]`, in
program order: those of the loop and, when the loop is left normally, the
terminator at `utf8_idx` (line 95). -/
def add_utf16_writes (env : Env) (str : List Nat) : List (Nat × Nat) :=
  match add_utf16_loop env.wctomb str 0 [] with
  | (writes, none) => writes
  | (writes, some utf8_idx) => writes ++ [(utf8_idx, 0)]

/-- Lines 79-95 of `add_utf16_to_object`: the content of `utf8_str` handed to
cJSON, `null` for the early `return NULL`, `undefined` when a store fell
outside the 256 bytes of `utf8_str`. -/
def utf16_to_utf8 (env : Env) (str : List Nat) : Ret (List Nat) :=
  if (add_utf16_writes env str).all (fun w => w.1 < 256) then
    match (add_utf16_loop env.wctomb str 0 []).2 with
    | none => .null
    | some _ => .ok (c_string (add_utf16_writes env str))
  else .undefined

/-- Model of `add_utf16_to_object(object, name, str)`; `k` is the number of
allocating cJSON calls made before it.  `cJSON_AddStringToObject` appends the
member and returns non-`NULL` unless its allocation fails. -/
def add_utf16_to_object (env : Env) (k : Nat) (object : cJSON_Object) (name : String)
    (str : List Nat) : Ret cJSON_Object :=
  match utf16_to_utf8 env str with
  | .ok utf8_str =>
    if env.cJSON_alloc k then .ok (object ++ [(name, .string utf8_str)]) else .null
  | .null => .null
  | .undefined => .undefined

/-- The `while` loop of `open_device` (lines 109-118).  `fuel` bounds the number
of iterations; each iteration increments `wchar_idx` and needs
`wchar_idx < 256`, so `256` is enough (`open_device_loop_fuel`).  Returns the
stores into `serial_wchar` and the final `wchar_idx`, or `none` for the
`return NULL` inside the loop. -/
def open_device_loop (mbtowc : List Nat → Option (Nat × Nat)) (serial : List Nat) :
    Nat → Nat → Nat → List (Nat × Nat) → List (Nat × Nat) × Option Nat
  | 0, _, wchar_idx, writes => (writes, some wchar_idx)
  | fuel + 1, utf8_idx, wchar_idx, writes =>
    if utf8_idx < serial.length ∧ wchar_idx < 256 then
      match mbtowc (serial.drop utf8_idx) with
      | none => (writes, none)
      | some (wc, len) =>
        open_device_loop mbtowc serial fuel (utf8_idx + len) (wchar_idx + 1)
          (writes ++ [(wchar_idx, wc)])
    else (writes, some wchar_idx)

/-- Every store `open_device` makes into `wchar_t serial_wchar[256]`, in program
order: those of the loop and, when the loop is left normally, the terminator
at `wchar_idx` (line 122). -/
def open_device_writes (env : Env) (serial : List Nat) : List (Nat × Nat) :=
  match open_device_loop env.mbtowc serial 256 0 0 [] with
  | (writes, none) => writes
  | (writes, some wchar_idx) => writes ++ [(wchar_idx, 0)]

/-- Model of `open_device(serial)`: the transport call it makes and the handle
it returns. -/
def open_device (env : Env) (serial : List Nat) : Run Nat :=
  if (open_device_writes env serial).all (fun w => w.1 < 256) then
    match (open_device_loop env.mbtowc serial 256 0 0 []).2 with
    | none => ⟨[], .null⟩
    | some _ =>
      let serial_wchar := c_string (open_device_writes env serial)
      ⟨[.hid_open ZMK_VEND_ID ZMK_PROD_ID serial_wchar],
        match env.hid_open ZMK_VEND_ID ZMK_PROD_ID serial_wchar with
        | some dev => .ok dev
        | none => .null⟩
  else ⟨[], .undefined⟩

/-! ## Device directory -/

/-- The `while (zmk_device)` loop of `get_device_list` (lines 151-173).  The
first argument is the list from `zmk_device` on, `k` counts the allocating
cJSON calls made so far and `device_array` holds the items added so far.
`null` stands for a `goto out`. -/
def get_device_list_loop (env : Env) :
    List hid_device_info → Option hid_device_info → Nat → List cJSON_Object →
      Ret (List cJSON_Object × Nat)
  | [], _, k, device_array => .ok (device_array, k)
  | zmk_device :: next, prev_device, k, device_array =>
    if prev_device = none ∨
        some zmk_device.serial_number ≠ prev_device.map hid_device_info.serial_number then
      if env.cJSON_alloc k then
        match add_utf16_to_object env (k + 1) [] "manufacturer"
            zmk_device.manufacturer_string with
        | .ok o1 =>
          match add_utf16_to_object env (k + 2) o1 "product" zmk_device.product_string with
          | .ok o2 =>
            match add_utf16_to_object env (k + 3) o2 "serial" zmk_device.serial_number with
            | .ok device_obj =>
              get_device_list_loop env next (some zmk_device) (k + 4)
                (device_array ++ [device_obj])
            | .null => .null
            | .undefined => .undefined
          | .null => .null
          | .undefined => .undefined
        | .null => .null
        | .undefined => .undefined
      else .null
    else get_device_list_loop env next (some zmk_device) k device_array

/-- Model of `get_device_list()`: the device array that is printed, or `null`. -/
def get_device_list (env : Env) : Ret (List cJSON_Object) :=
  match env.hid_enumerate with
  | [] => .null
  | device_head =>
    if env.cJSON_alloc 0 then
      match get_device_list_loop env device_head none 1 [] with
      | .ok (device_array, k) => if env.cJSON_alloc k then .ok device_array else .null
      | .null => .null
      | .undefined => .undefined
    else .null

/-! ## Report codec -/

/-- The bytes of a local report struct of `size` bytes once its `report_id` has
been assigned: the remaining bytes are still indeterminate. -/
def report_init (env : Env) (report_id size : Nat) : List Nat :=
  report_id :: (List.range (size - 1)).map (fun i => env.uninit (i + 1))

/-- The caller's buffer after the transport stored `data` at its start (never
more than the buffer holds). -/
def store_report (buf data : List Nat) : List Nat :=
  data.take buf.length ++ buf.drop data.length

/-- Load of a `uint8_t` member at byte offset `i` of a packed struct. -/
def load_u8 (buf : List Nat) (i : Nat) : Nat :=
  buf.getD i 0 % 256

/-- Load of a `uint32_t` member at byte offset `i` of a packed struct, least
significant byte first. -/
def load_u32 (buf : List Nat) (i : Nat) : Nat :=
  load_u8 buf i + 256 * load_u8 buf (i + 1) + 65536 * load_u8 buf (i + 2)
    + 16777216 * load_u8 buf (i + 3)

/-- Load of the one-bit field `key_remap_support`, the first bit-field of the
byte at offset `4` of `struct zmk_hid_vendor_functions_report`. -/
def load_key_remap_support (buf : List Nat) : Nat :=
  load_u8 buf 4 % 2

/-- The bytes of `struct zmk_hid_vendor_key_sel_report` after lines 275-277;
the two `uint8_t` parameters keep the low eight bits of the arguments. -/
def key_sel_report (layer key_idx : Nat) : List Nat :=
  [SETTINGS_REPORT_ID_KEY_SEL, layer % 256, key_idx % 256]

/-! ## Settings session -/

/-- Model of `get_keyboard_features(serial)`. -/
def get_keyboard_features (env : Env) (serial : List Nat) : Run cJSON_Object :=
  let opened := open_device env serial
  match opened.ret with
  | .undefined => ⟨opened.trace, .undefined⟩
  | .null => ⟨opened.trace ++ [.hid_error none], .null⟩
  | .ok dev =>
    let report := report_init env SETTINGS_REPORT_ID_FUNCTIONS 5
    let get := Event.hid_get_feature_report dev (load_u8 report 0) 5
    let (res, data) := env.hid_get_feature_report dev (load_u8 report 0) 5
    if res = -1 then
      ⟨opened.trace ++ [get, .hid_error (some dev), .hid_close dev], .null⟩
    else
      let report := store_report report data
      let out : Run cJSON_Object := ⟨opened.trace ++ [get, .hid_close dev], .null⟩
      if env.cJSON_alloc 0 then
        let features : cJSON_Object := []
        if env.cJSON_alloc 1 then
          let features := features ++ [("protocol_revision", .number (load_u8 report 3))]
          if env.cJSON_alloc 2 then
            let features := features ++ [("keycount", .number (load_u8 report 1))]
            if env.cJSON_alloc 3 then
              let features := features ++ [("layer_count", .number (load_u8 report 2))]
              if env.cJSON_alloc 4 then
                let features := features ++
                  [("key_remap_support", .bool (load_key_remap_support report != 0))]
                if env.cJSON_alloc 5 then
                  ⟨opened.trace ++ [get, .hid_close dev], .ok features⟩
                else out
              else out
            else out
          else out
        else out
      else out

/-- Model of `get_key_data(serial, layer, key_idx)`. -/
def get_key_data (env : Env) (serial : List Nat) (layer key_idx : Nat) : Run cJSON_Object :=
  let opened := open_device env serial
  match opened.ret with
  | .undefined => ⟨opened.trace, .undefined⟩
  | .null => ⟨opened.trace ++ [.hid_error none], .null⟩
  | .ok dev =>
    if env.cJSON_alloc 0 then
      let key : cJSON_Object := []
      let sel := key_sel_report layer key_idx
      let send := Event.hid_send_feature_report dev sel 3
      if env.hid_send_feature_report dev sel = -1 then
        ⟨opened.trace ++ [send, .hid_error (some dev), .hid_close dev], .null⟩
      else
        let data := report_init env SETTINGS_REPORT_ID_KEY_DATA 13
        let get := Event.hid_get_feature_report dev (load_u8 data 0) 13
        let (res, stored) := env.hid_get_feature_report dev (load_u8 data 0) 13
        if res = -1 then
          ⟨opened.trace ++ [send, get, .hid_error (some dev), .hid_close dev], .null⟩
        else
          let data := store_report data stored
          let out : Run cJSON_Object := ⟨opened.trace ++ [send, get, .hid_close dev], .null⟩
          if env.cJSON_alloc 1 then
            let key := key ++ [("behavior_id", .number (load_u32 data 1))]
            if env.cJSON_alloc 2 then
              let key := key ++ [("param1", .number (load_u32 data 5))]
              if env.cJSON_alloc 3 then
                let key := key ++ [("param2", .number (load_u32 data 9))]
                if env.cJSON_alloc 4 then
                  ⟨opened.trace ++ [send, get, .hid_close dev], .ok key⟩
                else out
              else out
            else out
          else out
    else ⟨opened.trace ++ [.hid_close dev], .null⟩

/-! ## Vocabulary of the specification -/

/-- Whether a pointer result is non-`NULL` (and the execution is defined). -/
def Ret.isOk {α : Type} : Ret α → Bool
  | .ok _ => true
  | _ => false

/-- The descriptors a listing call emitted: the items of the returned array,
none when the call failed. -/
def listing : Ret (List cJSON_Object) → List cJSON_Object
  | .ok device_array => device_array
  | _ => []

/-- The text `utf16_to_utf8` produces for a string that converts. -/
def utf8_text (env : Env) (str : List Nat) : List Nat :=
  match utf16_to_utf8 env str with
  | .ok utf8_str => utf8_str
  | _ => []

/-- All three string fields of an enumeration entry convert. -/
def fields_convert (env : Env) (d : hid_device_info) : Bool :=
  (utf16_to_utf8 env d.manufacturer_string).isOk &&
    (utf16_to_utf8 env d.product_string).isOk &&
    (utf16_to_utf8 env d.serial_number).isOk

/-- The device descriptor of an enumeration entry: its three fields as
converted text, in the member order of the result. -/
def device_descriptor (env : Env) (d : hid_device_info) : cJSON_Object :=
  [("manufacturer", .string (utf8_text env d.manufacturer_string)),
   ("product", .string (utf8_text env d.product_string)),
   ("serial", .string (utf8_text env d.serial_number))]

/-- The `serial` member of a descriptor. -/
def serial_of (o : cJSON_Object) : Option cJSON_Value :=
  o.lookup "serial"

/-- Deduplication policy in the words of the specification: entries are
inspected in enumeration order; the first entry is emitted, and a later entry
is emitted only if its serial differs from the serial of the most recently
emitted entry (the first argument). -/
def emitted_spec : Option hid_device_info → List hid_device_info → List hid_device_info
  | _, [] => []
  | none, d :: rest => d :: emitted_spec (some d) rest
  | some e, d :: rest =>
    if d.serial_number ≠ e.serial_number then d :: emitted_spec (some d) rest
    else emitted_spec (some e) rest

/-- The contiguity the transport is expected to provide: entries that share a
serial are adjacent, that is, whenever two entries have the same serial every
entry between them has it too. -/
def serials_contiguous (devs : List hid_device_info) : Prop :=
  ∀ i j k : Fin devs.length, i < j → j < k →
    (devs.get i).serial_number = (devs.get k).serial_number →
      (devs.get j).serial_number = (devs.get i).serial_number

instance (devs : List hid_device_info) : Decidable (serials_contiguous devs) := by
  unfold serials_contiguous
  infer_instance

/-- The capability record the result builder assembles from the bytes of a
`struct zmk_hid_vendor_functions_report`. -/
def functions_record (report : List Nat) : cJSON_Object :=
  [("protocol_revision", .number (load_u8 report 3)),
   ("keycount", .number (load_u8 report 1)),
   ("layer_count", .number (load_u8 report 2)),
   ("key_remap_support", .bool (load_key_remap_support report != 0))]

/-- The key-data record the result builder assembles from the bytes of a
`struct zmk_hid_vendor_key_data_report`. -/
def key_data_record (data : List Nat) : cJSON_Object :=
  [("behavior_id", .number (load_u32 data 1)),
   ("param1", .number (load_u32 data 5)),
   ("param2", .number (load_u32 data 9))]

/-- The fetch exchange of `get_key_data` on handle `dev`. -/
def fetch_event (dev : Nat) : Event :=
  .hid_get_feature_report dev SETTINGS_REPORT_ID_KEY_DATA 13

/-- The select exchange of `get_key_data` on handle `dev`. -/
def select_event (dev layer key_idx : Nat) : Event :=
  .hid_send_feature_report dev (key_sel_report layer key_idx) 3

/-! ## Example environments -/

/-- An environment in the "C" locale restricted to ASCII: both conversions are
one byte per character and fail above 127.  The transport enumerates nothing,
opens the device with serial `ABC123` as handle `1`, accepts every send, and
answers a get with `get_answer`; every cJSON allocation succeeds and
indeterminate bytes read as `0xAA`. -/
def ascii_env (devs : List hid_device_info) (get_answer : Int × List Nat) : Env where
  wctomb := fun c => if c < 128 then some [c] else none
  mbtowc := fun bytes =>
    match bytes with
    | [] => none
    | b :: _ => if b < 128 then some (b, 1) else none
  hid_enumerate := devs
  hid_open := fun _ _ serial_number =>
    if serial_number = [65, 66, 67, 49, 50, 51] then some 1 else none
  hid_send_feature_report := fun _ data => data.length
  hid_get_feature_report := fun _ _ _ => get_answer
  uninit := fun _ => 0xAA
  cJSON_alloc := fun _ => true

/-- The serial `ABC123`. -/
def ABC123 : List Nat := [65, 66, 67, 49, 50, 51]

/-- The serial `XYZ789`. -/
def XYZ789 : List Nat := [88, 89, 90, 55, 56, 57]

/-- An enumeration entry with the given serial, manufacturer `ZMK` and product
`KB`. -/
def entry (serial_number : List Nat) : hid_device_info :=
  ⟨serial_number, [90, 77, 75], [75, 66]⟩

/-- The descriptor printed for `entry serial_number` in `ascii_env`. -/
def entry_descriptor (serial_number : List Nat) : cJSON_Object :=
  [("manufacturer", .string [90, 77, 75]), ("product", .string [75, 66]),
   ("serial", .string serial_number)]

/-- The environment `ascii_env [] (-1, [])` with a device that refuses every
send. -/
def refusing_env : Env :=
  { ascii_env [] (-1, []) with hid_send_feature_report := fun _ _ => -1 }

/-! ## Device directory: deduplication -/

theorem emitted_spec_none (d : hid_device_info) (rest : List hid_device_info) :
    emitted_spec none (d :: rest) = d :: emitted_spec (some d) rest := rfl

theorem emitted_spec_ne {e d : hid_device_info} (rest : List hid_device_info)
    (h : d.serial_number ≠ e.serial_number) :
    emitted_spec (some e) (d :: rest) = d :: emitted_spec (some d) rest := by
  simp [emitted_spec, h]

theorem emitted_spec_eq {e d : hid_device_info} (rest : List hid_device_info)
    (h : d.serial_number = e.serial_number) :
    emitted_spec (some e) (d :: rest) = emitted_spec (some e) rest := by
  simp [emitted_spec, h]

theorem add_utf16_to_object_eq_ok {env : Env} {k : Nat} {object o : cJSON_Object}
    {name : String} {str : List Nat} (h : add_utf16_to_object env k object name str = .ok o) :
    (utf16_to_utf8 env str).isOk = true ∧ env.cJSON_alloc k = true ∧
      o = object ++ [(name, .string (utf8_text env str))] := by
  unfold add_utf16_to_object at h
  cases hc : utf16_to_utf8 env str with
  | ok s =>
    rw [hc] at h
    by_cases ha : env.cJSON_alloc k = true
    · simp [ha] at h
      simp [Ret.isOk, utf8_text, hc, ha, h]
    · simp [ha] at h
  | null => rw [hc] at h; simp at h
  | undefined => rw [hc] at h; simp at h

theorem add_utf16_to_object_of_ok {env : Env} {k : Nat} (object : cJSON_Object)
    (name : String) {str : List Nat} (hc : (utf16_to_utf8 env str).isOk = true)
    (ha : env.cJSON_alloc k = true) :
    add_utf16_to_object env k object name str
      = .ok (object ++ [(name, .string (utf8_text env str))]) := by
  unfold add_utf16_to_object utf8_text
  cases h : utf16_to_utf8 env str with
  | ok s => simp [ha]
  | null => rw [h] at hc; simp [Ret.isOk] at hc
  | undefined => rw [h] at hc; simp [Ret.isOk] at hc

theorem get_device_list_loop_emit {env : Env} {d : hid_device_info}
    {rest : List hid_device_info} {prev : Option hid_device_info} {k : Nat}
    {arr : List cJSON_Object} {r : List cJSON_Object × Nat}
    (hcond : prev = none ∨
      some d.serial_number ≠ prev.map hid_device_info.serial_number)
    (h : get_device_list_loop env (d :: rest) prev k arr = .ok r) :
    fields_convert env d = true ∧
      get_device_list_loop env rest (some d) (k + 4) (arr ++ [device_descriptor env d])
        = .ok r := by
  rw [get_device_list_loop, if_pos hcond] at h
  by_cases ha : env.cJSON_alloc k = true
  · rw [if_pos ha] at h
    cases h1 : add_utf16_to_object env (k + 1) [] "manufacturer" d.manufacturer_string with
    | ok o1 =>
      simp only [h1] at h
      cases h2 : add_utf16_to_object env (k + 2) o1 "product" d.product_string with
      | ok o2 =>
        simp only [h2] at h
        cases h3 : add_utf16_to_object env (k + 3) o2 "serial" d.serial_number with
        | ok o3 =>
          simp only [h3] at h
          obtain ⟨c1, -, e1⟩ := add_utf16_to_object_eq_ok h1
          obtain ⟨c2, -, e2⟩ := add_utf16_to_object_eq_ok h2
          obtain ⟨c3, -, e3⟩ := add_utf16_to_object_eq_ok h3
          refine ⟨by simp [fields_convert, c1, c2, c3], ?_⟩
          have : o3 = device_descriptor env d := by
            simp [e3, e2, e1, device_descriptor]
          rw [← this]
          exact h
        | null => simp [h3] at h
        | undefined => simp [h3] at h
      | null => simp [h2] at h
      | undefined => simp [h2] at h
    | null => simp [h1] at h
    | undefined => simp [h1] at h
  · rw [if_neg ha] at h
    simp at h

theorem get_device_list_loop_skip {env : Env} {d : hid_device_info}
    {rest : List hid_device_info} {prev : Option hid_device_info} {k : Nat}
    {arr : List cJSON_Object}
    (hcond : ¬ (prev = none ∨
      some d.serial_number ≠ prev.map hid_device_info.serial_number)) :
    get_device_list_loop env (d :: rest) prev k arr
      = get_device_list_loop env rest (some d) k arr := by
  rw [get_device_list_loop, if_neg hcond]

/-- What the loop of `get_device_list` appends when it runs to its end. -/
theorem get_device_list_loop_eq_ok (env : Env) :
    ∀ (devs : List hid_device_info) (prev e : Option hid_device_info) (k : Nat)
      (arr arr' : List cJSON_Object) (k' : Nat),
      prev.map hid_device_info.serial_number = e.map hid_device_info.serial_number →
      get_device_list_loop env devs prev k arr = .ok (arr', k') →
        arr' = arr ++ (emitted_spec e devs).map (device_descriptor env) ∧
          ∀ d ∈ emitted_spec e devs, fields_convert env d = true := by
  intro devs
  induction devs with
  | nil =>
    intro prev e k arr arr' k' _ h
    cases e <;> simp [get_device_list_loop, emitted_spec] at h ⊢ <;> exact h.1.symm
  | cons d rest ih =>
    intro prev e k arr arr' k' hpe h
    cases e with
    | none =>
      have hprev : prev = none := by cases prev <;> simp at hpe ⊢
      obtain ⟨hc, h'⟩ := get_device_list_loop_emit (Or.inl hprev) h
      obtain ⟨ha, hb⟩ := ih (some d) (some d) _ _ _ _ rfl h'
      rw [emitted_spec_none]
      refine ⟨by simp [ha], ?_⟩
      intro x hx
      rcases List.mem_cons.mp hx with rfl | hx
      · exact hc
      · exact hb x hx
    | some e' =>
      obtain ⟨p, rfl⟩ : ∃ p, prev = some p := by cases prev <;> simp at hpe ⊢
      have hpe' : p.serial_number = e'.serial_number := by simpa using hpe
      by_cases hne : d.serial_number ≠ e'.serial_number
      · have hcond : (some p : Option hid_device_info) = none ∨
            some d.serial_number ≠ (some p).map hid_device_info.serial_number := by
          right; simpa [hpe'] using hne
        obtain ⟨hc, h'⟩ := get_device_list_loop_emit hcond h
        obtain ⟨ha, hb⟩ := ih (some d) (some d) _ _ _ _ rfl h'
        rw [emitted_spec_ne rest hne]
        refine ⟨by simp [ha], ?_⟩
        intro x hx
        rcases List.mem_cons.mp hx with rfl | hx
        · exact hc
        · exact hb x hx
      · have heq : d.serial_number = e'.serial_number := not_not.mp hne
        have hcond : ¬ ((some p : Option hid_device_info) = none ∨
            some d.serial_number ≠ (some p).map hid_device_info.serial_number) := by
          simp [hpe', heq]
        rw [get_device_list_loop_skip hcond] at h
        rw [emitted_spec_eq rest heq]
        exact ih (some d) (some e') _ _ _ _ (by simp [heq]) h

/-- The loop of `get_device_list` runs to its end when every field converts and
no cJSON allocation fails. -/
theorem get_device_list_loop_total (env : Env) (hjson : ∀ k, env.cJSON_alloc k = true) :
    ∀ (devs : List hid_device_info) (prev : Option hid_device_info) (k : Nat)
      (arr : List cJSON_Object), (∀ d ∈ devs, fields_convert env d = true) →
      ∃ r, get_device_list_loop env devs prev k arr = .ok r := by
  intro devs
  induction devs with
  | nil => intro prev k arr _; exact ⟨_, rfl⟩
  | cons d rest ih =>
    intro prev k arr hconv
    have hd := hconv d (List.mem_cons_self _ _)
    have hrest : ∀ x ∈ rest, fields_convert env x = true :=
      fun x hx => hconv x (List.mem_cons_of_mem _ hx)
    simp only [fields_convert, Bool.and_eq_true] at hd
    obtain ⟨⟨c1, c2⟩, c3⟩ := hd
    rw [get_device_list_loop]
    split
    · rw [if_pos (hjson k), add_utf16_to_object_of_ok _ _ c1 (hjson _)]
      simp only
      rw [add_utf16_to_object_of_ok _ _ c2 (hjson _)]
      simp only
      rw [add_utf16_to_object_of_ok _ _ c3 (hjson _)]
      exact ih _ _ _ hrest
    · exact ih _ _ _ hrest

/-- The entries the specification emits after `e` are the first entries of the
maximal runs of equal serial that follow the entries continuing the run of
`e`. -/
theorem emitted_spec_runs (e : hid_device_info) :
    ∀ devs : List hid_device_info, ∃ (first : List hid_device_info)
      (runs : List (List hid_device_info)),
      first ++ runs.flatten = devs ∧
      (∀ a ∈ first, a.serial_number = e.serial_number) ∧
      (∀ r ∈ runs, r ≠ [] ∧ ∀ a ∈ r, ∀ b ∈ r, a.serial_number = b.serial_number) ∧
      runs.Chain' (fun r1 r2 => ∀ a ∈ r1, ∀ b ∈ r2, a.serial_number ≠ b.serial_number) ∧
      (∀ r ∈ runs.head?, ∀ b ∈ r, b.serial_number ≠ e.serial_number) ∧
      emitted_spec (some e) devs = runs.filterMap List.head? := by
  intro devs
  induction devs generalizing e with
  | nil => exact ⟨[], [], by simp [emitted_spec]⟩
  | cons d rest ih =>
    by_cases hne : d.serial_number ≠ e.serial_number
    · obtain ⟨first, runs, hcat, hfirst, hruns, hchain, hhead, hemit⟩ := ih d
      refine ⟨[], (d :: first) :: runs, by simp [hcat], by simp, ?_, ?_, ?_, ?_⟩
      · intro r hr
        rcases List.mem_cons.mp hr with rfl | hr
        · refine ⟨by simp, ?_⟩
          have hall : ∀ a ∈ d :: first, a.serial_number = d.serial_number := by
            intro a ha
            rcases List.mem_cons.mp ha with rfl | ha
            · rfl
            · exact hfirst a ha
          intro a ha b hb
          rw [hall a ha, hall b hb]
        · exact hruns r hr
      · rw [List.chain'_cons']
        refine ⟨?_, hchain⟩
        intro r hr a ha b hb
        have hb' := hhead r hr b hb
        rcases List.mem_cons.mp ha with rfl | ha
        · exact fun h => hb' h.symm
        · rw [hfirst a ha]; exact fun h => hb' h.symm
      · intro r hr b hb
        simp only [List.head?_cons, Option.mem_def, Option.some.injEq] at hr
        subst hr
        rcases List.mem_cons.mp hb with rfl | hb
        · exact hne
        · rw [hfirst b hb]; exact hne
      · rw [emitted_spec_ne rest hne, hemit]
        simp
    · have heq : d.serial_number = e.serial_number := not_not.mp hne
      obtain ⟨first, runs, hcat, hfirst, hruns, hchain, hhead, hemit⟩ := ih e
      refine ⟨d :: first, runs, by simp [hcat], ?_, hruns, hchain, hhead, ?_⟩
      · intro a ha
        rcases List.mem_cons.mp ha with rfl | ha
        · exact heq
        · exact hfirst a ha
      · rw [emitted_spec_eq rest heq, hemit]

/-- The entries the specification emits are the first entries of the maximal
runs of contiguous entries with equal serial. -/
theorem emitted_spec_run_heads (devs : List hid_device_info) :
    ∃ runs : List (List hid_device_info),
      runs.flatten = devs ∧
      (∀ r ∈ runs, r ≠ [] ∧ ∀ a ∈ r, ∀ b ∈ r, a.serial_number = b.serial_number) ∧
      runs.Chain' (fun r1 r2 => ∀ a ∈ r1, ∀ b ∈ r2, a.serial_number ≠ b.serial_number) ∧
      emitted_spec none devs = runs.filterMap List.head? := by
  cases devs with
  | nil => exact ⟨[], by simp [emitted_spec]⟩
  | cons d rest =>
    obtain ⟨first, runs, hcat, hfirst, hruns, hchain, hhead, hemit⟩ := emitted_spec_runs d rest
    have hall : ∀ a ∈ d :: first, a.serial_number = d.serial_number := by
      intro a ha
      rcases List.mem_cons.mp ha with rfl | ha
      · rfl
      · exact hfirst a ha
    refine ⟨(d :: first) :: runs, by simp [hcat], ?_, ?_, ?_⟩
    · intro r hr
      rcases List.mem_cons.mp hr with rfl | hr
      · refine ⟨by simp, ?_⟩
        intro a ha b hb
        rw [hall a ha, hall b hb]
      · exact hruns r hr
    · rw [List.chain'_cons']
      refine ⟨?_, hchain⟩
      intro r hr a ha b hb
      rw [hall a ha]
      exact fun h => hhead r hr b hb h.symm
    · rw [emitted_spec_none, hemit]
      simp

/-- What `get_device_list` returns when it returns an array. -/
theorem get_device_list_eq_ok {env : Env} {items : List cJSON_Object}
    (h : get_device_list env = .ok items) :
    env.hid_enumerate ≠ [] ∧
      items = (emitted_spec none env.hid_enumerate).map (device_descriptor env) ∧
      ∀ d ∈ emitted_spec none env.hid_enumerate, fields_convert env d = true := by
  unfold get_device_list at h
  split at h
  · simp at h
  · rename_i hne
    refine ⟨fun h0 => hne h0, ?_⟩
    by_cases ha : env.cJSON_alloc 0 = true
    · rw [if_pos ha] at h
      split at h
      · rename_i arr k hloop
        have := get_device_list_loop_eq_ok env _ none none _ _ _ _ rfl hloop
        split at h
        · simp only [Ret.ok.injEq] at h
          subst h
          simpa using this
        · simp at h
      · simp at h
      · simp at h
    · rw [if_neg ha] at h
      simp at h

/-- When every field converts and no cJSON allocation fails, `get_device_list`
returns an array for a non-empty enumeration. -/
theorem get_device_list_total {env : Env} (hne : env.hid_enumerate ≠ [])
    (hconv : ∀ d ∈ env.hid_enumerate, fields_convert env d = true)
    (hjson : ∀ k, env.cJSON_alloc k = true) :
    ∃ items, get_device_list env = .ok items := by
  obtain ⟨⟨arr, k⟩, hloop⟩ := get_device_list_loop_total env hjson env.hid_enumerate none 1 [] hconv
  unfold get_device_list
  split
  · rename_i h0; exact absurd h0 hne
  · rw [if_pos (hjson 0), hloop]
    simp [hjson k]

/-- C1. For every enumeration list whose string fields all convert (and with no
cJSON allocation failing), `get_device_list` emits, in enumeration order,
exactly the descriptors of the entries that are first in the list or whose
serial differs from the serial of the most recently emitted entry; for a
non-empty enumeration this array is what it returns; and the emitted entries
are the first entries of the maximal runs of contiguous entries with identical
serial. -/
theorem get_device_list_emits_run_heads (env : Env)
    (hconv : ∀ d ∈ env.hid_enumerate, fields_convert env d = true)
    (hjson : ∀ k, env.cJSON_alloc k = true) :
    listing (get_device_list env)
        = (emitted_spec none env.hid_enumerate).map (device_descriptor env) ∧
      (env.hid_enumerate ≠ [] →
        get_device_list env
          = .ok ((emitted_spec none env.hid_enumerate).map (device_descriptor env))) ∧
      ∃ runs : List (List hid_device_info),
        runs.flatten = env.hid_enumerate ∧
        (∀ r ∈ runs, r ≠ [] ∧ ∀ a ∈ r, ∀ b ∈ r, a.serial_number = b.serial_number) ∧
        runs.Chain' (fun r1 r2 => ∀ a ∈ r1, ∀ b ∈ r2, a.serial_number ≠ b.serial_number) ∧
        emitted_spec none env.hid_enumerate = runs.filterMap List.head? := by
  have hok : env.hid_enumerate ≠ [] →
      get_device_list env
        = .ok ((emitted_spec none env.hid_enumerate).map (device_descriptor env)) := by
    intro hne
    obtain ⟨items, hitems⟩ := get_device_list_total hne hconv hjson
    rw [hitems, (get_device_list_eq_ok hitems).2.1]
  refine ⟨?_, hok, emitted_spec_run_heads _⟩
  by_cases hne : env.hid_enumerate = []
  · simp [get_device_list, hne, listing, emitted_spec]
  · rw [hok hne, listing]

/-- C1, scenario: the serials `ABC123`, `ABC123`, `XYZ789` give exactly two
descriptors, `ABC123` then `XYZ789`. -/
theorem get_device_list_emits_run_heads_witness :
    get_device_list (ascii_env [entry ABC123, entry ABC123, entry XYZ789] (-1, []))
      = .ok [entry_descriptor ABC123, entry_descriptor XYZ789] :=
  ((get_device_list_emits_run_heads
      (ascii_env [entry ABC123, entry ABC123, entry XYZ789] (-1, []))
      (by decide) (fun _ => rfl)).2.1 (by decide)).trans (by decide)

theorem serials_contiguous_tail {d : hid_device_info} {rest : List hid_device_info}
    (h : serials_contiguous (d :: rest)) : serials_contiguous rest := by
  intro i j k hij hjk heq
  have := h i.succ j.succ k.succ (by simpa using hij) (by simpa using hjk) (by simpa using heq)
  simpa using this

theorem serials_contiguous_head {d d' : hid_device_info} {rest : List hid_device_info}
    (h : serials_contiguous (d :: d' :: rest))
    (hmem : d.serial_number ∈ (d' :: rest).map hid_device_info.serial_number) :
    d'.serial_number = d.serial_number := by
  obtain ⟨x, hx, hxs⟩ := List.mem_map.mp hmem
  obtain ⟨n, hn, hnx⟩ := List.mem_iff_getElem.mp hx
  cases n with
  | zero => simp at hnx; rw [hnx]; exact hxs
  | succ m =>
    have hlen : m + 2 < (d :: d' :: rest).length := by simpa using hn
    have := h ⟨0, by simp⟩ ⟨1, by simp⟩ ⟨m + 2, hlen⟩ (by simp)
      (Fin.mk_lt_mk.mpr (by omega))
      (by simp at hnx ⊢; rw [hnx, hxs])
    simpa using this

theorem emitted_spec_subset :
    ∀ (devs : List hid_device_info) (e : Option hid_device_info),
      ∀ x ∈ emitted_spec e devs, x ∈ devs := by
  intro devs
  induction devs with
  | nil => intro e x hx; cases e <;> simp [emitted_spec] at hx
  | cons d rest ih =>
    intro e x hx
    cases e with
    | none =>
      rw [emitted_spec_none] at hx
      rcases List.mem_cons.mp hx with rfl | hx
      · exact List.mem_cons_self _ _
      · exact List.mem_cons_of_mem _ (ih _ x hx)
    | some e' =>
      by_cases hne : d.serial_number ≠ e'.serial_number
      · rw [emitted_spec_ne rest hne] at hx
        rcases List.mem_cons.mp hx with rfl | hx
        · exact List.mem_cons_self _ _
        · exact List.mem_cons_of_mem _ (ih _ x hx)
      · rw [emitted_spec_eq rest (not_not.mp hne)] at hx
        exact List.mem_cons_of_mem _ (ih _ x hx)

theorem emitted_spec_congr {e e' : hid_device_info}
    (h : e.serial_number = e'.serial_number) :
    ∀ devs : List hid_device_info, emitted_spec (some e) devs = emitted_spec (some e') devs := by
  intro devs
  induction devs with
  | nil => simp [emitted_spec]
  | cons d rest ih =>
    by_cases hne : d.serial_number ≠ e.serial_number
    · rw [emitted_spec_ne rest hne, emitted_spec_ne rest (h ▸ hne)]
    · rw [emitted_spec_eq rest (not_not.mp hne),
        emitted_spec_eq rest ((not_not.mp hne).trans h), ih]

theorem emitted_spec_fresh {e : hid_device_info} :
    ∀ devs : List hid_device_info,
      e.serial_number ∉ devs.map hid_device_info.serial_number →
      emitted_spec (some e) devs = emitted_spec none devs := by
  intro devs h
  cases devs with
  | nil => simp [emitted_spec]
  | cons d rest =>
    have hne : d.serial_number ≠ e.serial_number := by
      intro heq
      exact h (by simp [heq])
    rw [emitted_spec_ne rest hne, emitted_spec_none]

/-- On an enumeration whose equal serials are contiguous the emitted entries
have pairwise different serials. -/
theorem emitted_spec_nodup :
    ∀ devs : List hid_device_info, serials_contiguous devs →
      ((emitted_spec none devs).map hid_device_info.serial_number).Nodup := by
  intro devs
  induction devs with
  | nil => intro _; simp [emitted_spec]
  | cons d rest ih =>
    intro hc
    have ih' := ih (serials_contiguous_tail hc)
    rw [emitted_spec_none]
    by_cases hmem : d.serial_number ∈ rest.map hid_device_info.serial_number
    · cases rest with
      | nil => simp at hmem
      | cons d' rest' =>
        have heq := serials_contiguous_head hc hmem
        rw [emitted_spec_none] at ih'
        rw [emitted_spec_eq rest' heq, emitted_spec_congr heq.symm]
        simpa [heq] using ih'
    · rw [emitted_spec_fresh rest hmem]
      rw [List.map_cons, List.nodup_cons]
      refine ⟨?_, ih'⟩
      intro hin
      obtain ⟨x, hx, hxs⟩ := List.mem_map.mp hin
      exact hmem (List.mem_map.mpr ⟨x, emitted_spec_subset _ _ x hx, hxs⟩)

theorem serial_of_device_descriptor (env : Env) (d : hid_device_info) :
    serial_of (device_descriptor env d) = some (.string (utf8_text env d.serial_number)) := by
  rfl

theorem utf16_to_utf8_eq_of_isOk {env : Env} {str : List Nat}
    (h : (utf16_to_utf8 env str).isOk = true) :
    utf16_to_utf8 env str = .ok (utf8_text env str) := by
  unfold utf8_text
  cases hc : utf16_to_utf8 env str with
  | ok s => rfl
  | null => rw [hc] at h; simp [Ret.isOk] at h
  | undefined => rw [hc] at h; simp [Ret.isOk] at h

/-- C5, counterexample: the enumeration `ABC123`, `XYZ789`, `ABC123` is listed
with two descriptors of serial `ABC123`. -/
theorem get_device_list_repeats_serial :
    get_device_list (ascii_env [entry ABC123, entry XYZ789, entry ABC123] (-1, []))
        = .ok [entry_descriptor ABC123, entry_descriptor XYZ789, entry_descriptor ABC123] ∧
      ¬ ([entry_descriptor ABC123, entry_descriptor XYZ789,
          entry_descriptor ABC123].map serial_of).Nodup := by
  decide

/-- C5, amended. For every enumeration list in which entries with the same
serial are contiguous and different serials do not convert to the same text,
a listing returned by `get_device_list` contains no two descriptors with the
same serial. -/
theorem get_device_list_serials_nodup (env : Env)
    (hcontig : serials_contiguous env.hid_enumerate)
    (hinj : ∀ a ∈ env.hid_enumerate, ∀ b ∈ env.hid_enumerate,
      utf16_to_utf8 env a.serial_number = utf16_to_utf8 env b.serial_number →
        a.serial_number = b.serial_number)
    (items : List cJSON_Object) (hret : get_device_list env = .ok items) :
    (items.map serial_of).Nodup := by
  obtain ⟨-, hitems, hconv⟩ := get_device_list_eq_ok hret
  have hmap : items.map serial_of
      = ((emitted_spec none env.hid_enumerate).map hid_device_info.serial_number).map
          (fun s => some (cJSON_Value.string (utf8_text env s))) := by
    rw [hitems, List.map_map, List.map_map]
    apply List.map_congr_left
    intro d _
    exact serial_of_device_descriptor env d
  rw [hmap]
  apply List.Nodup.map_on _ (emitted_spec_nodup _ hcontig)
  intro s1 h1 s2 h2 heq
  obtain ⟨a, ha, rfl⟩ := List.mem_map.mp h1
  obtain ⟨b, hb, rfl⟩ := List.mem_map.mp h2
  have hca := hconv a ha
  have hcb := hconv b hb
  simp only [fields_convert, Bool.and_eq_true] at hca hcb
  apply hinj a (emitted_spec_subset _ _ a ha) b (emitted_spec_subset _ _ b hb)
  rw [utf16_to_utf8_eq_of_isOk hca.2, utf16_to_utf8_eq_of_isOk hcb.2]
  simpa using heq

/-- C5, witness: the enumeration `ABC123`, `ABC123`, `XYZ789` is contiguous and
its listing has pairwise different serials. -/
theorem get_device_list_serials_nodup_witness :
    serials_contiguous [entry ABC123, entry ABC123, entry XYZ789] ∧
      ([entry_descriptor ABC123, entry_descriptor XYZ789].map serial_of).Nodup :=
  ⟨by decide,
    get_device_list_serials_nodup
      (ascii_env [entry ABC123, entry ABC123, entry XYZ789] (-1, []))
      (by decide) (by decide) _ (by decide)⟩

/-! ## Settings session: shape of the executions -/

theorem open_device_trace (env : Env) (serial : List Nat) :
    ∀ e ∈ (open_device env serial).trace,
      e = .hid_open ZMK_VEND_ID ZMK_PROD_ID (c_string (open_device_writes env serial)) := by
  intro e he
  unfold open_device at he
  split_ifs at he
  · split at he
    · simp at he
    · simpa using he
  · simp at he

theorem open_device_trace_of_ok {env : Env} {serial : List Nat} {dev : Nat}
    (h : (open_device env serial).ret = .ok dev) :
    (open_device env serial).trace
      = [.hid_open ZMK_VEND_ID ZMK_PROD_ID (c_string (open_device_writes env serial))] := by
  unfold open_device at h ⊢
  split_ifs at h ⊢
  · split at h
    · simp at h
    · rename_i heq
      simp [heq]

/-- The executions of `get_keyboard_features` on a device that opens. -/
theorem get_keyboard_features_of_open {env : Env} {serial : List Nat} {dev : Nat}
    (hopen : (open_device env serial).ret = .ok dev) :
    get_keyboard_features env serial =
      if (env.hid_get_feature_report dev SETTINGS_REPORT_ID_FUNCTIONS 5).1 = -1 then
        ⟨(open_device env serial).trace ++
          [.hid_get_feature_report dev SETTINGS_REPORT_ID_FUNCTIONS 5,
            .hid_error (some dev), .hid_close dev], .null⟩
      else
        ⟨(open_device env serial).trace ++
          [.hid_get_feature_report dev SETTINGS_REPORT_ID_FUNCTIONS 5, .hid_close dev],
          if env.cJSON_alloc 0 = true ∧ env.cJSON_alloc 1 = true ∧ env.cJSON_alloc 2 = true ∧
              env.cJSON_alloc 3 = true ∧ env.cJSON_alloc 4 = true ∧ env.cJSON_alloc 5 = true then
            .ok (functions_record (store_report (report_init env SETTINGS_REPORT_ID_FUNCTIONS 5)
              (env.hid_get_feature_report dev SETTINGS_REPORT_ID_FUNCTIONS 5).2))
          else .null⟩ := by
  have hid : load_u8 (report_init env SETTINGS_REPORT_ID_FUNCTIONS 5) 0
      = SETTINGS_REPORT_ID_FUNCTIONS := by
    simp [report_init, load_u8, SETTINGS_REPORT_ID_FUNCTIONS]
  unfold get_keyboard_features
  simp only [hopen, hid]
  split_ifs <;> simp_all [functions_record]

/-- The executions of `get_key_data` on a device that opens. -/
theorem get_key_data_of_open {env : Env} {serial : List Nat} {dev : Nat} (layer key_idx : Nat)
    (hopen : (open_device env serial).ret = .ok dev) :
    get_key_data env serial layer key_idx =
      if env.cJSON_alloc 0 = true then
        if env.hid_send_feature_report dev (key_sel_report layer key_idx) = -1 then
          ⟨(open_device env serial).trace ++
            [select_event dev layer key_idx, .hid_error (some dev), .hid_close dev], .null⟩
        else if (env.hid_get_feature_report dev SETTINGS_REPORT_ID_KEY_DATA 13).1 = -1 then
          ⟨(open_device env serial).trace ++
            [select_event dev layer key_idx, fetch_event dev, .hid_error (some dev),
              .hid_close dev], .null⟩
        else
          ⟨(open_device env serial).trace ++
            [select_event dev layer key_idx, fetch_event dev, .hid_close dev],
            if env.cJSON_alloc 1 = true ∧ env.cJSON_alloc 2 = true ∧ env.cJSON_alloc 3 = true ∧
                env.cJSON_alloc 4 = true then
              .ok (key_data_record (store_report (report_init env SETTINGS_REPORT_ID_KEY_DATA 13)
                (env.hid_get_feature_report dev SETTINGS_REPORT_ID_KEY_DATA 13).2))
            else .null⟩
      else ⟨(open_device env serial).trace ++ [.hid_close dev], .null⟩ := by
  have hid : load_u8 (report_init env SETTINGS_REPORT_ID_KEY_DATA 13) 0
      = SETTINGS_REPORT_ID_KEY_DATA := by
    simp [report_init, load_u8, SETTINGS_REPORT_ID_KEY_DATA]
  unfold get_key_data
  simp only [hopen, hid, select_event, fetch_event]
  split_ifs <;> simp_all [key_data_record]

/-! ## Device directory: empty enumeration -/

/-- C6, counterexample: when the transport returns the empty list,
`get_device_list` returns `NULL`, not the empty array. -/
theorem get_device_list_empty_fails :
    get_device_list (ascii_env [] (-1, [])) = .null ∧
      get_device_list (ascii_env [] (-1, [])) ≠ .ok [] := by
  decide

/-- C6, amended. When the transport returns the empty list, which is also its
answer when enumeration could not be performed, `get_device_list` returns
failure; and an array it returns is never empty. -/
theorem get_device_list_never_empty (env : Env) :
    (env.hid_enumerate = [] → get_device_list env = .null) ∧
      ∀ items, get_device_list env = .ok items → items ≠ [] := by
  constructor
  · intro h
    simp [get_device_list, h]
  · intro items h
    obtain ⟨hne, hitems, -⟩ := get_device_list_eq_ok h
    cases hdevs : env.hid_enumerate with
    | nil => exact absurd hdevs hne
    | cons d rest =>
      rw [hitems, hdevs, emitted_spec_none]
      simp

/-- C6, witness: an empty enumeration fails and a non-empty one is listed. -/
theorem get_device_list_never_empty_witness :
    get_device_list (ascii_env [] (-1, [])) = .null ∧
      [entry_descriptor ABC123] ≠ [] :=
  ⟨(get_device_list_never_empty (ascii_env [] (-1, []))).1 rfl,
    (get_device_list_never_empty (ascii_env [entry ABC123] (-1, []))).2
      [entry_descriptor ABC123] (by decide)⟩

/-! ## Report codec: lengths and layouts -/

/-- C7, counterexample: a capability response and a key-data response of
reported length 3 are both accepted, and a result is produced from the
buffer, whose unwritten bytes keep their indeterminate content (here `0xAA`). -/
theorem short_report_accepted :
    (get_keyboard_features (ascii_env [] (3, [3, 10, 4])) ABC123).ret
        = .ok [("protocol_revision", .number 170), ("keycount", .number 10),
            ("layer_count", .number 4), ("key_remap_support", .bool false)] ∧
      (get_key_data (ascii_env [] (3, [5, 1, 2])) ABC123 2 15).ret
        = .ok [("behavior_id", .number 2863268353), ("param1", .number 2863311530),
            ("param2", .number 2863311530)] := by
  decide

/-- C7, amended. On a device that opens (and, for `get_key_data`, accepts the
select; no cJSON allocation failing), `get_keyboard_features` and
`get_key_data` fail when the get exchange returns `-1`, and for every other
reported length, equal to the size of the report or not, they produce a
result from the buffer. -/
theorem query_fails_only_on_error_code (env : Env) (serial : List Nat) (dev layer key_idx : Nat)
    (hopen : (open_device env serial).ret = .ok dev)
    (hsel : env.hid_send_feature_report dev (key_sel_report layer key_idx) ≠ -1)
    (hjson : ∀ k, env.cJSON_alloc k = true) :
    (get_keyboard_features env serial).ret =
        (if (env.hid_get_feature_report dev SETTINGS_REPORT_ID_FUNCTIONS 5).1 = -1 then .null
         else .ok (functions_record
          (store_report (report_init env SETTINGS_REPORT_ID_FUNCTIONS 5)
            (env.hid_get_feature_report dev SETTINGS_REPORT_ID_FUNCTIONS 5).2))) ∧
      (get_key_data env serial layer key_idx).ret =
        (if (env.hid_get_feature_report dev SETTINGS_REPORT_ID_KEY_DATA 13).1 = -1 then .null
         else .ok (key_data_record
          (store_report (report_init env SETTINGS_REPORT_ID_KEY_DATA 13)
            (env.hid_get_feature_report dev SETTINGS_REPORT_ID_KEY_DATA 13).2))) := by
  rw [get_keyboard_features_of_open hopen, get_key_data_of_open layer key_idx hopen]
  constructor
  · simp only [hjson, and_self, if_true]
    split_ifs <;> rfl
  · simp only [hjson, and_self, if_true, if_neg hsel]
    split_ifs <;> rfl

/-- C7, witness: a response of reported length 7 to the 13-byte key-data
request, and one of length 2 to the 5-byte capability request. -/
theorem query_fails_only_on_error_code_witness :
    (get_keyboard_features (ascii_env [] (2, [3, 9])) ABC123).ret
        = .ok (functions_record [3, 9, 0xAA, 0xAA, 0xAA]) ∧
      (get_key_data (ascii_env [] (7, [5, 1, 0, 0, 0, 2, 0])) ABC123 0 0).ret
        = .ok (key_data_record [5, 1, 0, 0, 0, 2, 0, 0xAA, 0xAA, 0xAA, 0xAA, 0xAA, 0xAA]) :=
  ⟨(query_fails_only_on_error_code (ascii_env [] (2, [3, 9])) ABC123 1 0 0
      (by decide) (by decide) (fun _ => rfl)).1.trans (by decide),
    (query_fails_only_on_error_code (ascii_env [] (7, [5, 1, 0, 0, 0, 2, 0])) ABC123 1 0 0
      (by decide) (by decide) (fun _ => rfl)).2.trans (by decide)⟩

theorem load_u8_cons_zero (b : Nat) (bs : List Nat) : load_u8 (b :: bs) 0 = b % 256 := rfl

theorem load_u8_cons_succ (b : Nat) (bs : List Nat) (i : Nat) :
    load_u8 (b :: bs) (i + 1) = load_u8 bs i := rfl

/-- C8. For every 5-byte Functions response `[3, k, l, p, f]` on a device that
opens (no cJSON allocation failing), `get_keyboard_features` reports
`keycount = k`, `layer_count = l`, `protocol_revision = p` and
`key_remap_support` = bit 0 of `f`; a response that differs only in the flag
byte and agrees on its bit 0 gives the same result. -/
theorem functions_report_decode (env : Env) (serial : List Nat) (dev k l p f : Nat)
    (hk : k < 256) (hl : l < 256) (hp : p < 256)
    (hopen : (open_device env serial).ret = .ok dev)
    (hget : env.hid_get_feature_report dev SETTINGS_REPORT_ID_FUNCTIONS 5 = (5, [3, k, l, p, f]))
    (hjson : ∀ i, env.cJSON_alloc i = true) :
    (get_keyboard_features env serial).ret
        = .ok [("protocol_revision", .number p), ("keycount", .number k),
            ("layer_count", .number l), ("key_remap_support", .bool (f.testBit 0))] ∧
      ∀ (env' : Env) (f' : Nat), f'.testBit 0 = f.testBit 0 →
        (open_device env' serial).ret = .ok dev →
        env'.hid_get_feature_report dev SETTINGS_REPORT_ID_FUNCTIONS 5 = (5, [3, k, l, p, f']) →
        (∀ i, env'.cJSON_alloc i = true) →
        (get_keyboard_features env' serial).ret = (get_keyboard_features env serial).ret := by
  have key : ∀ (env : Env) (f : Nat), (open_device env serial).ret = .ok dev →
      env.hid_get_feature_report dev SETTINGS_REPORT_ID_FUNCTIONS 5 = (5, [3, k, l, p, f]) →
      (∀ i, env.cJSON_alloc i = true) →
      (get_keyboard_features env serial).ret
        = .ok [("protocol_revision", .number p), ("keycount", .number k),
            ("layer_count", .number l), ("key_remap_support", .bool (f.testBit 0))] := by
    intro env f hopen hget hjson
    rw [get_keyboard_features_of_open hopen, hget]
    have hbit : (f % 256 % 2 != 0) = f.testBit 0 := by
      rw [Nat.testBit_zero]
      have h2 : f % 256 % 2 = f % 2 := Nat.mod_mod_of_dvd f (by decide)
      rw [h2]
      rcases Nat.mod_two_eq_zero_or_one f with h | h <;> simp [h]
    simp [hjson, functions_record, store_report, report_init, load_u8_cons_zero,
      load_u8_cons_succ, load_key_remap_support, Nat.mod_eq_of_lt hk, Nat.mod_eq_of_lt hl,
      Nat.mod_eq_of_lt hp, hbit]
  refine ⟨key env f hopen hget hjson, ?_⟩
  intro env' f' hbit hopen' hget' hjson'
  rw [key env f hopen hget hjson, key env' f' hopen' hget' hjson', hbit]

/-- C8, scenario: `[3,10,4,1,1]` decodes to keycount 10, layer_count 4,
protocol_revision 1, key_remap_support true. -/
theorem functions_report_decode_witness :
    (get_keyboard_features (ascii_env [] (5, [3, 10, 4, 1, 1])) ABC123).ret
      = .ok [("protocol_revision", .number 1), ("keycount", .number 10),
          ("layer_count", .number 4), ("key_remap_support", .bool true)] :=
  (functions_report_decode (ascii_env [] (5, [3, 10, 4, 1, 1])) ABC123 1 10 4 1 1
    (by decide) (by decide) (by decide) (by decide) rfl (fun _ => rfl)).1

/-- C9, counterexample: read least significant byte first, the response
`[5,0,0,0,1,7,0,0,0,0,0,0,42]` does not decode to `1, 7, 42` but to
`16777216, 7, 704643072`. -/
theorem key_data_scenario_values :
    (get_key_data (ascii_env [] (13, [5, 0, 0, 0, 1, 7, 0, 0, 0, 0, 0, 0, 42])) ABC123 2 15).ret
        = .ok [("behavior_id", .number 16777216), ("param1", .number 7),
            ("param2", .number 704643072)] ∧
      (get_key_data (ascii_env [] (13, [5, 0, 0, 0, 1, 7, 0, 0, 0, 0, 0, 0, 42])) ABC123
          2 15).ret
        ≠ .ok [("behavior_id", .number 1), ("param1", .number 7), ("param2", .number 42)] := by
  decide

/-- C9, amended. Reading the three 4-byte KeyData fields as little-endian u32
values, `get_key_data` (on a device that opens and accepts the select, no
cJSON allocation failing) decodes the 13-byte fetch response
`[5,0,0,0,1,7,0,0,0,0,0,0,42]` to `behavior_id = 16777216`, `param1 = 7`,
`param2 = 704643072`. -/
theorem key_data_little_endian (env : Env) (serial : List Nat) (dev layer key_idx : Nat)
    (hopen : (open_device env serial).ret = .ok dev)
    (hsel : env.hid_send_feature_report dev (key_sel_report layer key_idx) ≠ -1)
    (hget : env.hid_get_feature_report dev SETTINGS_REPORT_ID_KEY_DATA 13
      = (13, [5, 0, 0, 0, 1, 7, 0, 0, 0, 0, 0, 0, 42]))
    (hjson : ∀ i, env.cJSON_alloc i = true) :
    (get_key_data env serial layer key_idx).ret
      = .ok [("behavior_id", .number 16777216), ("param1", .number 7),
          ("param2", .number 704643072)] := by
  rw [get_key_data_of_open layer key_idx hopen, hget]
  simp only [hjson, and_self, if_true, if_neg hsel]
  have hdata : store_report (report_init env SETTINGS_REPORT_ID_KEY_DATA 13)
      [5, 0, 0, 0, 1, 7, 0, 0, 0, 0, 0, 0, 42] = [5, 0, 0, 0, 1, 7, 0, 0, 0, 0, 0, 0, 42] := by
    simp [store_report, report_init]
  have hres : ¬ ((13 : Int) = -1) := by decide
  rw [hdata, if_neg hres]
  show Ret.ok (key_data_record [5, 0, 0, 0, 1, 7, 0, 0, 0, 0, 0, 0, 42]) = _
  decide

/-- C9, witness: the scenario with layer 2 and key 15. -/
theorem key_data_little_endian_witness :
    (get_key_data (ascii_env [] (13, [5, 0, 0, 0, 1, 7, 0, 0, 0, 0, 0, 0, 42])) ABC123 2 15).ret
      = .ok [("behavior_id", .number 16777216), ("param1", .number 7),
          ("param2", .number 704643072)] :=
  key_data_little_endian (ascii_env [] (13, [5, 0, 0, 0, 1, 7, 0, 0, 0, 0, 0, 0, 42])) ABC123
    1 2 15 (by decide) (by decide) rfl (fun _ => rfl)

/-- C10. For every layer index and key index in 0..255, on a device that opens
(the cJSON object being allocated), the only buffer `get_key_data` sends is
the three bytes `[4, layer, key]`, passed with length 3, and it does send
it. -/
theorem key_select_bytes (env : Env) (serial : List Nat) (dev layer key_idx : Nat)
    (hlayer : layer < 256) (hkey : key_idx < 256)
    (hopen : (open_device env serial).ret = .ok dev)
    (halloc : env.cJSON_alloc 0 = true) :
    Event.hid_send_feature_report dev [4, layer, key_idx] 3
        ∈ (get_key_data env serial layer key_idx).trace ∧
      ∀ d data n, Event.hid_send_feature_report d data n
          ∈ (get_key_data env serial layer key_idx).trace →
        d = dev ∧ data = [4, layer, key_idx] ∧ n = 3 ∧ data.length = 3 := by
  have hsel : key_sel_report layer key_idx = [4, layer, key_idx] := by
    simp [key_sel_report, SETTINGS_REPORT_ID_KEY_SEL, Nat.mod_eq_of_lt hlayer,
      Nat.mod_eq_of_lt hkey]
  rw [get_key_data_of_open layer key_idx hopen, open_device_trace_of_ok hopen, if_pos halloc]
  constructor
  · split_ifs <;> simp [select_event, hsel]
  · intro d data n hmem
    split_ifs at hmem <;> simp [select_event, fetch_event, hsel] at hmem <;>
      simp [hmem]

/-- C10, witness: layer 2, key 15 sends `[4,2,15]`. -/
theorem key_select_bytes_witness :
    Event.hid_send_feature_report 1 [4, 2, 15] 3
      ∈ (get_key_data (ascii_env [] (-1, [])) ABC123 2 15).trace :=
  (key_select_bytes (ascii_env [] (-1, [])) ABC123 1 2 15 (by decide) (by decide)
    (by decide) rfl).1

/-! ## Settings session: ordering and cleanup -/

/-- C2. On a device that opens, every get-feature-report exchange `get_key_data`
issues is the KeyData fetch on the opened handle and the transport call
immediately before it is the KeySelect send on the same handle; if the select
exchange fails no fetch is issued and the call fails; the select is issued
whenever the cJSON object was allocated and the fetch whenever the select
succeeded. -/
theorem select_before_fetch (env : Env) (serial : List Nat) (dev layer key_idx : Nat)
    (hopen : (open_device env serial).ret = .ok dev) :
    (∀ i d id n,
        (get_key_data env serial layer key_idx).trace[i]?
            = some (.hid_get_feature_report d id n) →
          Event.hid_get_feature_report d id n = fetch_event dev ∧
          ∃ j, i = j + 1 ∧
            (get_key_data env serial layer key_idx).trace[j]?
              = some (select_event dev layer key_idx)) ∧
      (env.hid_send_feature_report dev (key_sel_report layer key_idx) = -1 →
        (∀ d id n, Event.hid_get_feature_report d id n
            ∉ (get_key_data env serial layer key_idx).trace) ∧
          (get_key_data env serial layer key_idx).ret = .null) ∧
      (env.cJSON_alloc 0 = true →
        select_event dev layer key_idx ∈ (get_key_data env serial layer key_idx).trace) ∧
      (env.cJSON_alloc 0 = true →
        env.hid_send_feature_report dev (key_sel_report layer key_idx) ≠ -1 →
        fetch_event dev ∈ (get_key_data env serial layer key_idx).trace) := by
  rw [get_key_data_of_open layer key_idx hopen, open_device_trace_of_ok hopen]
  refine ⟨?_, ?_, ?_, ?_⟩
  · intro i d id n h
    split_ifs at h ⊢ <;>
      rcases i with _ | _ | _ | _ | _ | i <;>
        simp [select_event, fetch_event] at h ⊢ <;>
          simp [h]
  · intro hsel
    split_ifs <;> simp [select_event]
  · intro halloc
    rw [if_pos halloc]
    split_ifs <;> simp
  · intro halloc hsel
    rw [if_pos halloc, if_neg hsel]
    split_ifs <;> simp

/-- C2, witness: a successful query issues select then fetch, and a device that
refuses the select is never asked for the key data. -/
theorem select_before_fetch_witness :
    (select_event 1 2 15
        ∈ (get_key_data (ascii_env [] (13, [5, 1, 0, 0, 0, 7, 0, 0, 0, 42, 0, 0, 0]))
            ABC123 2 15).trace ∧
      fetch_event 1
        ∈ (get_key_data (ascii_env [] (13, [5, 1, 0, 0, 0, 7, 0, 0, 0, 42, 0, 0, 0]))
            ABC123 2 15).trace) ∧
      ((∀ d id n, Event.hid_get_feature_report d id n
          ∉ (get_key_data refusing_env ABC123 2 15).trace) ∧
        (get_key_data refusing_env ABC123 2 15).ret = .null) :=
  ⟨⟨(select_before_fetch (ascii_env [] (13, [5, 1, 0, 0, 0, 7, 0, 0, 0, 42, 0, 0, 0]))
        ABC123 1 2 15 (by decide)).2.2.1 rfl,
      (select_before_fetch (ascii_env [] (13, [5, 1, 0, 0, 0, 7, 0, 0, 0, 42, 0, 0, 0]))
        ABC123 1 2 15 (by decide)).2.2.2 rfl (by decide)⟩,
    (select_before_fetch refusing_env ABC123 1 2 15 (by decide)).2.1 (by decide)⟩

theorem no_close_of_open_null {env : Env} {serial : List Nat} {e : Event}
    (he : e ∈ (open_device env serial).trace ++ [Event.hid_error none]) :
    ∀ d, e ≠ .hid_close d := by
  intro d hd
  subst hd
  rcases List.mem_append.mp he with h | h
  · have := open_device_trace env serial _ h
    simp at this
  · simp at h

/-- C3. If `open_device` returns a handle, `get_keyboard_features` and
`get_key_data` each close that handle exactly once, as their last transport
call, on every path; if `open_device` returns `NULL`, close is never called. -/
theorem handle_closed_once (env : Env) (serial : List Nat) (layer key_idx : Nat) :
    (∀ dev, (open_device env serial).ret = .ok dev →
        (∃ before, (get_keyboard_features env serial).trace = before ++ [.hid_close dev] ∧
          ∀ d, Event.hid_close d ∉ before) ∧
        (∃ before, (get_key_data env serial layer key_idx).trace
            = before ++ [.hid_close dev] ∧
          ∀ d, Event.hid_close d ∉ before)) ∧
      ((open_device env serial).ret = .null →
        (∀ d, Event.hid_close d ∉ (get_keyboard_features env serial).trace) ∧
        (∀ d, Event.hid_close d ∉ (get_key_data env serial layer key_idx).trace)) := by
  constructor
  · intro dev hopen
    rw [get_keyboard_features_of_open hopen, get_key_data_of_open layer key_idx hopen,
      open_device_trace_of_ok hopen]
    constructor <;> split_ifs <;>
      first
        | exact ⟨_ :: [_, _, _], rfl, by simp [select_event, fetch_event]⟩
        | exact ⟨_ :: [_, _], rfl, by simp [select_event, fetch_event]⟩
        | exact ⟨_ :: [_], rfl, by simp [select_event, fetch_event]⟩
        | exact ⟨[_], rfl, by simp⟩
  · intro hnull
    constructor
    · intro d hmem
      have htrace : (get_keyboard_features env serial).trace
          = (open_device env serial).trace ++ [Event.hid_error none] := by
        unfold get_keyboard_features
        simp only [hnull]
      rw [htrace] at hmem
      exact no_close_of_open_null hmem d rfl
    · intro d hmem
      have htrace : (get_key_data env serial layer key_idx).trace
          = (open_device env serial).trace ++ [Event.hid_error none] := by
        unfold get_key_data
        simp only [hnull]
      rw [htrace] at hmem
      exact no_close_of_open_null hmem d rfl

/-- C3, witness: a query on the device `ABC123`, which opens, ends with the one
close of its handle; a query on `XYZ789`, which does not open, never calls
close. -/
theorem handle_closed_once_witness :
    (∃ before, (get_key_data (ascii_env [] (-1, [])) ABC123 2 15).trace
        = before ++ [.hid_close 1] ∧ ∀ d, Event.hid_close d ∉ before) ∧
      (∀ d, Event.hid_close d ∉ (get_keyboard_features (ascii_env [] (-1, [])) XYZ789).trace) :=
  ⟨((handle_closed_once (ascii_env [] (-1, [])) ABC123 2 15).1 1 (by decide)).2,
    ((handle_closed_once (ascii_env [] (-1, [])) XYZ789 2 15).2 (by decide)).1⟩

/-! ## String bridge: buffer bounds -/

/-- The fuel of `open_device_loop` never runs out: once `fuel + wchar_idx`
reaches `256`, more fuel changes nothing. -/
theorem open_device_loop_fuel (mbtowc : List Nat → Option (Nat × Nat)) (serial : List Nat) :
    ∀ (fuel utf8_idx wchar_idx : Nat) (writes : List (Nat × Nat)),
      256 ≤ fuel + wchar_idx →
      open_device_loop mbtowc serial (fuel + 1) utf8_idx wchar_idx writes
        = open_device_loop mbtowc serial fuel utf8_idx wchar_idx writes := by
  intro fuel
  induction fuel with
  | zero =>
    intro utf8_idx wchar_idx writes h
    have : ¬ (utf8_idx < serial.length ∧ wchar_idx < 256) := by omega
    simp [open_device_loop, this]
  | succ fuel ih =>
    intro utf8_idx wchar_idx writes h
    rw [open_device_loop, open_device_loop]
    split_ifs with hc
    · cases hm : mbtowc (List.drop utf8_idx serial) with
      | none => rfl
      | some r =>
        obtain ⟨wc, len⟩ := r
        exact ih _ _ _ (by omega)
    · rfl

set_option maxRecDepth 200000 in
/-- C4, failing input: a string of 256 ASCII characters makes both conversions
store their terminator at index 256, one past the end of the 256-element
buffer. -/
theorem string_bridge_overrun :
    (256, 0) ∈ add_utf16_writes (ascii_env [] (-1, [])) (List.replicate 256 65) ∧
      (256, 0) ∈ open_device_writes (ascii_env [] (-1, [])) (List.replicate 256 65) ∧
      utf16_to_utf8 (ascii_env [] (-1, [])) (List.replicate 256 65) = .undefined ∧
      (open_device (ascii_env [] (-1, [])) (List.replicate 256 65)).ret = .undefined := by
  decide

end ZmkConnector
